import Mathlib

/-!
Shallow embedding of `excel-reader/scripts/excel.py`: an Excel workbook
reader CLI.  Pure functions of the script (`format_cell`, `parse_range`,
`resolve_sheet`, `read_header_row`, the extraction loops of `cmd_rows` and
`cmd_column`) are translated into executable Lean definitions; the workbook
source (openpyxl, an external collaborator per the design document) is
modelled as a list of sheets, each a list of rows of typed cell values,
with its forward row stream `iter_rows(min_row=...)` modelled for start
rows `>= 1`.
-/

set_option autoImplicit false

namespace Excel

/-- Python floats as they occur in cell values: modelled as exact rationals
(the decimal-valued floats exercised here are representable), plus the
non-finite specials `inf`, `-inf` and `nan`. -/
inductive PyFloat where
  | finite (q : ℚ)
  | inf
  | negInf
  | nan
  deriving DecidableEq, Repr

/-- A raw cell value as produced by the workbook source: the tagged union of
`None`, datetime/date/time (carrying the text its `isoformat()` yields),
`bool`, `float`, `int` and `str` (design document §3). -/
inductive Cell where
  | none
  | dt (iso : String)
  | bool (b : Bool)
  | float (f : PyFloat)
  | int (n : Int)
  | str (s : String)
  deriving DecidableEq, Repr

/-- Digits of the exact decimal expansion of the fraction `r / d` (with
`0 ≤ r < d`), driven by fuel; for the dyadic denominators of Python floats
the expansion terminates well within the fuel used (1100 ≥ 1074). -/
def fracDigits : Nat → Nat → Nat → List Char
  | 0, _, _ => []
  | _ + 1, 0, _ => []
  | fuel + 1, r, d =>
    let r10 := r * 10
    Char.ofNat (48 + r10 / d) :: fracDigits fuel (r10 % d) d

/-- Python's `str` on a non-integral float, modelled as the exact decimal
expansion of the rational it denotes (Python prints the shortest decimal
that round-trips, which for the decimal-valued floats exercised here is
that exact expansion). -/
def floatRepr (q : ℚ) : String :=
  let n := q.num.natAbs
  let d := q.den
  let intPart := toString (n / d)
  let frac := fracDigits 1100 (n % d) d
  let body := if frac = [] then intPart ++ ".0" else intPart ++ "." ++ String.mk frac
  if q < 0 then "-" ++ body else body

/-- `format_cell` (excel.py lines 32-43).  Branches in source order:
`None`, datetime/date/time, `bool`, `float`, fallback `str(value)`.
The float branch evaluates `int(value)`, which in Python raises
`OverflowError` on `inf`/`-inf` and `ValueError` on `nan`; those raises are
modelled as `Except.error` with the Python exception text. -/
def format_cell : Cell → Except String String
  | .none => .ok ""
  | .dt iso => .ok iso
  | .bool b => .ok (if b then "True" else "False")
  | .float (.finite q) =>
    if q.den = 1 then .ok (toString q.num) else .ok (floatRepr q)
  | .float .inf => .error "cannot convert float infinity to integer"
  | .float .negInf => .error "cannot convert float infinity to integer"
  | .float .nan => .error "cannot convert float NaN to integer"
  | .int n => .ok (toString n)
  | .str s => .ok s

/-- `[format_cell(c) for c in row]`: formats every cell of a row; a raise in
any cell aborts the whole comprehension. -/
def formatRow (row : List Cell) : Except String (List String) :=
  row.mapM format_cell

/-- Digit run of Python `int(str)` after the optional sign: ASCII digits
with single underscores allowed only between digits. -/
def pyDigits : List Char → Nat → Option Nat
  | [], acc => some acc
  | '_' :: d :: rest, acc =>
    if d.isDigit then pyDigits rest (acc * 10 + (d.toNat - 48)) else Option.none
  | ['_'], _ => Option.none
  | c :: rest, acc =>
    if c.isDigit then pyDigits rest (acc * 10 + (c.toNat - 48)) else Option.none

/-- Python whitespace stripped by `int(str)` (`str.strip`'s ASCII subset). -/
def isPySpace (c : Char) : Bool :=
  c = ' ' || c = '\t' || c = '\n' || c = '\r' || c = '\x0b' || c = '\x0c'

/-- Python `int(str)` on a list of characters: surrounding whitespace is
stripped, then an optional single sign, then a nonempty ASCII digit run
(underscore-separated); anything else raises `ValueError`, modelled as
`Option.none`.  (Non-ASCII digits are outside this model.) -/
def pyIntL (cs : List Char) : Option Int :=
  let cs := (((cs.dropWhile isPySpace).reverse).dropWhile isPySpace).reverse
  match cs with
  | '+' :: d :: rest =>
    if d.isDigit then (pyDigits rest (d.toNat - 48)).map Int.ofNat else Option.none
  | '-' :: d :: rest =>
    if d.isDigit then (pyDigits rest (d.toNat - 48)).map (fun n => -(n : Int))
    else Option.none
  | d :: rest =>
    if d.isDigit then (pyDigits rest (d.toNat - 48)).map Int.ofNat else Option.none
  | [] => Option.none

/-- Python `int(str)` on a string. -/
def pyInt (s : String) : Option Int :=
  pyIntL s.data

/-- Error message of excel.py line 77 / 87. -/
def badFormMsg (s : String) : String :=
  s!"Invalid range '{s}'. Use N or N-M (e.g., 10, 10-20)"

/-- Error message of excel.py line 79. -/
def badBoundsMsg (s : String) : String :=
  s!"Invalid range '{s}'. Start must be >= 1 and end >= start."

/-- Error message of excel.py line 84. -/
def tooSmallMsg (n : Int) : String :=
  s!"Row number must be >= 1, got {n}"

/-- First component of Python `range_str.split("-", 1)`: the characters
before the first dash. -/
def dashLeft (cs : List Char) : List Char :=
  cs.takeWhile (fun c => c != '-')

/-- Second component of Python `range_str.split("-", 1)`: the characters
after the first dash. -/
def dashRight (cs : List Char) : List Char :=
  (cs.dropWhile (fun c => c != '-')).drop 1

/-- `parse_range` (excel.py lines 68-87).  `None` maps to `(None, None)`;
a token containing a dash is split at the first dash and both parts are fed
to `int`, failing (`die`) if either raises `ValueError`, or if
`start < 1 or end < start`; a dashless token is fed to `int`, failing if it
raises or if `n < 1`; errors carry the exact `die` message. -/
def parse_range : Option String → Except String (Option Int × Option Int)
  | Option.none => .ok (Option.none, Option.none)
  | some s =>
    if s.data.contains '-' then
      match pyIntL (dashLeft s.data), pyIntL (dashRight s.data) with
      | some a, some b =>
        if a < 1 ∨ b < a then .error (badBoundsMsg s) else .ok (some a, some b)
      | _, _ => .error (badFormMsg s)
    else
      match pyIntL s.data with
      | some n => if n < 1 then .error (tooSmallMsg n) else .ok (some n, some n)
      | Option.none => .error (badFormMsg s)

/-- ASCII lowering of one character, modelling Python `str.lower()` on the
ASCII names exercised here. -/
def lowerChar (c : Char) : Char :=
  if 'A' ≤ c ∧ c ≤ 'Z' then Char.ofNat (c.toNat + 32) else c

/-- Python `s.lower()` (ASCII model). -/
def pyLower (s : String) : String :=
  String.mk (s.data.map lowerChar)

/-- A sheet, as the workbook source presents it: the finite list of its
rows in order; row `i` (1-based) is entry `i - 1`. -/
abbrev Sheet := List (List Cell)

/-- A workbook: its sheets in workbook order, each with its display name.
`wb.sheetnames` is the list of first components. -/
abbrev Workbook := List (String × Sheet)

/-- The failure classes of the script's `die` calls, each carrying what the
message interpolates (design document §7). -/
inductive CmdError where
  | emptySheet
  | sheetNotFound (name : String) (available : List String)
  | invalidRange (msg : String)
  | columnNotFound (token : String) (available : List String)
  | columnIndexOutOfRange (idx : Int) (available : List String)
  | pyExc (msg : String)
  deriving DecidableEq, Repr

/-- The message each failure prints through `die` (or, for `pyExc`, through
the top-level handler `die(str(e))`). -/
def die_message : CmdError → String
  | .emptySheet => "Sheet is empty"
  | .sheetNotFound name available =>
    s!"Sheet '{name}' not found. Available: " ++ String.intercalate ", " available
  | .invalidRange msg => msg
  | .columnNotFound token available =>
    s!"Column '{token}' not found. Available: " ++ String.intercalate ", " available
  | .columnIndexOutOfRange idx available =>
    s!"Column index {idx} out of range (0-" ++ toString (available.length - 1) ++
      "). Available: " ++ String.intercalate ", " available
  | .pyExc msg => msg

/-- `resolve_sheet` (excel.py lines 46-54): absent name takes
`wb.sheetnames[0]` (an `IndexError` on a sheetless workbook, caught by the
top-level handler); otherwise the first sheet whose lowered name equals the
lowered request wins; no match dies with `SheetNotFound` carrying every
sheet name in workbook order. -/
def resolve_sheet (wb : Workbook) (name : Option String) :
    Except CmdError (String × Sheet) :=
  match name with
  | Option.none =>
    match wb with
    | [] => .error (.pyExc "list index out of range")
    | s :: _ => .ok s
  | some n =>
    match wb.find? (fun p => pyLower p.1 == pyLower n) with
    | some p => .ok p
    | Option.none => .error (.sheetNotFound n (wb.map Prod.fst))

/-- `ws.iter_rows(min_row=start, values_only=True)` of the workbook
source, for `start ≥ 1`: the sheet's rows from row `start` on.  (For
`start = 0` openpyxl substitutes 1, which the `Nat` subtraction below also
yields; negative start rows are outside this embedding and never reached by
the theorems.) -/
def iterRowsFrom (rows : Sheet) (start : Nat) : Sheet :=
  rows.drop (start - 1)

/-- Whether the range-end break of excel.py line 195 fires at absolute row
number `cur`. -/
def rangeBreak (range_end : Option Int) (cur : Int) : Bool :=
  match range_end with
  | some e => decide (cur > e)
  | Option.none => false

/-- The collection loop of `cmd_rows` (excel.py lines 192-200), over the
remaining stream with the running `count`: break before collecting when the
row number passes `range_end`; otherwise format the row (a formatting raise
aborts the command), append `(start_row + count, values)`, and stop once
`count` reaches `limit`. -/
def extract_loop (range_end : Option Int) (limit start_row : Int) :
    Sheet → Int → Except String (List (Int × List String))
  | [], _ => .ok []
  | row :: rest, count =>
    if rangeBreak range_end (start_row + count) then .ok []
    else
      match formatRow row with
      | .error m => .error m
      | .ok vals =>
        if count + 1 ≥ limit then .ok [(start_row + count, vals)]
        else
          match extract_loop range_end limit start_row rest (count + 1) with
          | .error m => .error m
          | .ok tail => .ok ((start_row + count, vals) :: tail)

/-- `read_header_row` (excel.py lines 90-93):
`ws.iter_rows(min_row=h, max_row=h)` formatted, i.e. the single row at
1-based index `h` when it exists, else the empty list.  (openpyxl maps
`min_row=0`/`max_row=0` to row 1 and yields nothing for negative `h`.) -/
def read_header_row (rows : Sheet) (header_row : Int) :
    Except String (List String) :=
  if header_row < 0 then .ok []
  else
    match rows[(if header_row = 0 then 1 else header_row.toNat) - 1]? with
    | some r => formatRow r
    | Option.none => .ok []

/-- The successful output of `cmd_rows`: the formatted headers, the
collected `(row number, formatted values)` pairs, and `ws.max_row`. -/
structure RowsResult where
  headers : List String
  collected : List (Int × List String)
  total : Nat
  deriving DecidableEq, Repr

/-- `start_row` before the header clamp (excel.py lines 181-186): the range
start when a range was given, else `header_row + 1 + offset`. -/
def pre_start (range_start : Option Int) (offset header_row : Int) : Int :=
  match range_start with
  | some s => s
  | Option.none => header_row + 1 + offset

/-- The effective limit (excel.py lines 183 and 186):
`(range_end - range_start + 1) if range_end else args.limit` when a range
start was given (Python truthiness: a `range_end` of `None` or `0` falls
back to `args.limit`), else `args.limit`. -/
def eff_limit (range_start range_end : Option Int) (limit : Int) : Int :=
  match range_start with
  | some s =>
    match range_end with
    | some e => if e = 0 then limit else e - s + 1
    | Option.none => limit
  | Option.none => limit

/-- The header clamp of `cmd_rows` (excel.py lines 189-190). -/
def clamp_start (start_row header_row : Int) : Int :=
  if start_row ≤ header_row then header_row + 1 else start_row

/-- The scan start of `cmd_rows`: `pre_start` pushed past the header. -/
def eff_start (range_start : Option Int) (offset header_row : Int) : Int :=
  clamp_start (pre_start range_start offset header_row) header_row

/-- `cmd_rows` after sheet resolution (excel.py lines 171-207): read the
header row, dying `EmptySheet` when it is empty; parse the range; take
`start_row`/`limit` from the range when given and from
`header_row + 1 + offset` and the `--limit` flag otherwise (`pre_start`,
`eff_limit`); clamp `start_row` past the header (`eff_start`); then run
the collection loop.  An empty `collected` is a success (the script prints
"No data rows found."). -/
def cmd_rows (rows : Sheet) (rangeArg : Option String)
    (limit offset header_row : Int) : Except CmdError RowsResult :=
  match read_header_row rows header_row with
  | .error m => .error (.pyExc m)
  | .ok headers =>
    if headers = [] then .error .emptySheet
    else
      match parse_range rangeArg with
      | .error m => .error (.invalidRange m)
      | .ok (range_start, range_end) =>
        match extract_loop range_end (eff_limit range_start range_end limit)
            (eff_start range_start offset header_row)
            (iterRowsFrom rows (eff_start range_start offset header_row).toNat) 0 with
        | .error m => .error (.pyExc m)
        | .ok collected => .ok ⟨headers, collected, rows.length⟩

/-- Python `list.index` returning the position of the first occurrence of
`a`, as an `Option` (the script guards the call with an `in` test, which
succeeds exactly when this is `some`). -/
def py_index (a : String) : List String → Option Nat
  | [] => Option.none
  | x :: xs => if x = a then some 0 else (py_index a xs).map (· + 1)

/-- The column-resolution block of `cmd_column` (excel.py lines 243-261):
first a case-insensitive name match against the headers (`in` then
`list.index`, so the first match wins), and only failing that the token is
tried as an integer, accepted when it lies in `[0, len(headers) - 1]`;
both failure messages list every header. -/
def resolve_column (headers : List String) (col_name : String) :
    Except CmdError (Nat × String) :=
  match py_index (pyLower col_name) (headers.map pyLower) with
  | some i => .ok (i, headers.getD i "")
  | Option.none =>
    match pyInt col_name with
    | some idx =>
      if 0 ≤ idx ∧ idx < (headers.length : Int) then
        .ok (idx.toNat, headers.getD idx.toNat "")
      else .error (.columnIndexOutOfRange idx headers)
    | Option.none => .error (.columnNotFound col_name headers)

/-- The collection loop of `cmd_column` (excel.py lines 265-272): format
cell `col_idx` of each row when the row is wide enough (else the empty
string), append `(start_row + count, value)`, and stop once `count`
reaches `limit`.  There is no range break and no header clamp here. -/
def column_loop (col_idx : Nat) (limit start_row : Int) :
    Sheet → Int → Except String (List (Int × String))
  | [], _ => .ok []
  | row :: rest, count =>
    match (match row[col_idx]? with
           | some c => format_cell c
           | Option.none => .ok "") with
    | .error m => .error m
    | .ok val =>
      if count + 1 ≥ limit then .ok [(start_row + count, val)]
      else
        match column_loop col_idx limit start_row rest (count + 1) with
        | .error m => .error m
        | .ok tail => .ok ((start_row + count, val) :: tail)

/-- The successful output of `cmd_column`: the resolved column name and
index, the collected `(row number, value)` pairs, and `ws.max_row`. -/
structure ColumnResult where
  column : String
  column_index : Nat
  values : List (Int × String)
  total : Nat
  deriving DecidableEq, Repr

/-- `cmd_column` after sheet resolution (excel.py lines 234-279): read the
header row, dying `EmptySheet` when it is empty; resolve the column; then
stream from `start_row = header_row + 1 + offset` — with no clamp against
the header row — collecting up to `limit` values.  An empty `collected` is
a success. -/
def cmd_column (rows : Sheet) (column : String)
    (limit offset header_row : Int) : Except CmdError ColumnResult :=
  match read_header_row rows header_row with
  | .error m => .error (.pyExc m)
  | .ok headers =>
    if headers = [] then .error .emptySheet
    else
      match resolve_column headers column with
      | .error e => .error e
      | .ok (col_idx, col_name) =>
        match column_loop col_idx limit (header_row + 1 + offset)
            (iterRowsFrom rows (header_row + 1 + offset).toNat) 0 with
        | .error m => .error (.pyExc m)
        | .ok collected => .ok ⟨col_name, col_idx, collected, rows.length⟩

/-- Full `cmd_rows` pipeline (excel.py lines 168-207) instrumented for the
resource lifecycle: the second component records whether `wb.close()` was
executed before the invocation terminated.  `die` (lines 27-29) raises
`SystemExit` without closing anything, so the sheet-lookup and range
failures terminate with the handle still open; only the explicit
`wb.close()` calls at lines 176 and 203 set the flag.  A formatting raise
unwinds past line 203 to the top-level handler, also skipping the close. -/
def cmd_rows_traced (wb : Workbook) (sheetArg rangeArg : Option String)
    (limit offset header_row : Int) : Except CmdError RowsResult × Bool :=
  match resolve_sheet wb sheetArg with
  | .error e => (.error e, false)
  | .ok (_, rows) =>
    match read_header_row rows header_row with
    | .error m => (.error (.pyExc m), false)
    | .ok headers =>
      if headers = [] then (.error .emptySheet, true)
      else
        match parse_range rangeArg with
        | .error m => (.error (.invalidRange m), false)
        | .ok (range_start, range_end) =>
          match extract_loop range_end (eff_limit range_start range_end limit)
              (eff_start range_start offset header_row)
              (iterRowsFrom rows (eff_start range_start offset header_row).toNat) 0 with
          | .error m => (.error (.pyExc m), false)
          | .ok collected => (.ok ⟨headers, collected, rows.length⟩, true)

/-! ### Helper lemmas -/

theorem le_of_rangeBreak_false {re : Option Int} {cur : Int}
    (h : rangeBreak re cur = false) : ∀ e, re = some e → cur ≤ e := by
  intro e he
  subst he
  simp [rangeBreak] at h
  omega

theorem parse_range_ok_bounds (t : String) (p : Option Int × Option Int)
    (h : parse_range (some t) = .ok p) :
    ∃ a b, p = (some a, some b) ∧ 1 ≤ a ∧ a ≤ b := by
  simp only [parse_range] at h
  split at h
  · split at h
    · rename_i a b _ _
      split at h
      · cases h
      · rename_i hcond
        cases h
        exact ⟨a, b, rfl, by omega, by omega⟩
    · cases h
  · split at h
    · rename_i n _
      split at h
      · cases h
      · rename_i hcond
        cases h
        exact ⟨n, n, rfl, by omega, le_refl n⟩
    · cases h

theorem extract_loop_mem (re : Option Int) (lim s : Int) (stream : Sheet) :
    ∀ (c : Int) (out : List (Int × List String)),
      extract_loop re lim s stream c = .ok out →
      ∀ p ∈ out, s + c ≤ p.1 ∧ p.1 < s + c + stream.length ∧
        ∀ e, re = some e → p.1 ≤ e := by
  induction stream with
  | nil =>
    intro c out h p hp
    simp only [extract_loop] at h
    cases h
    simp at hp
  | cons row rest ih =>
    intro c out h p hp
    simp only [extract_loop] at h
    split at h
    · cases h
      simp at hp
    · rename_i hbreak
      rw [Bool.not_eq_true] at hbreak
      cases hf : formatRow row with
      | error m => simp only [hf] at h; cases h
      | ok vals =>
        simp only [hf] at h
        split at h
        · cases h
          simp only [List.mem_singleton] at hp
          subst hp
          refine ⟨le_refl _, ?_, le_of_rangeBreak_false hbreak⟩
          simp only [List.length_cons]
          omega
        · cases hrec : extract_loop re lim s rest (c + 1) with
          | error m => simp only [hrec] at h; cases h
          | ok tail =>
            simp only [hrec] at h
            cases h
            rcases List.mem_cons.mp hp with hhead | htail
            · subst hhead
              refine ⟨le_refl _, ?_, le_of_rangeBreak_false hbreak⟩
              simp only [List.length_cons]
              omega
            · obtain ⟨h1, h2, h3⟩ := ih (c + 1) tail hrec p htail
              refine ⟨by omega, ?_, h3⟩
              simp only [List.length_cons]
              omega

theorem extract_loop_pairwise (re : Option Int) (lim s : Int) (stream : Sheet) :
    ∀ (c : Int) (out : List (Int × List String)),
      extract_loop re lim s stream c = .ok out →
      out.Pairwise (fun a b => a.1 < b.1) := by
  induction stream with
  | nil =>
    intro c out h
    simp only [extract_loop] at h
    cases h
    exact List.Pairwise.nil
  | cons row rest ih =>
    intro c out h
    simp only [extract_loop] at h
    split at h
    · cases h
      exact List.Pairwise.nil
    · cases hf : formatRow row with
      | error m => simp only [hf] at h; cases h
      | ok vals =>
        simp only [hf] at h
        split at h
        · cases h
          simp
        · cases hrec : extract_loop re lim s rest (c + 1) with
          | error m => simp only [hrec] at h; cases h
          | ok tail =>
            simp only [hrec] at h
            cases h
            refine List.Pairwise.cons ?_ (ih (c + 1) tail hrec)
            intro p hp
            have := (extract_loop_mem re lim s rest (c + 1) tail hrec p hp).1
            simp only
            omega

theorem extract_loop_length_le (re : Option Int) (lim s : Int) (stream : Sheet) :
    ∀ (c : Int) (out : List (Int × List String)),
      extract_loop re lim s stream c = .ok out →
      (out.length : Int) ≤ max (lim - c) 1 := by
  induction stream with
  | nil =>
    intro c out h
    simp only [extract_loop] at h
    cases h
    simp
  | cons row rest ih =>
    intro c out h
    simp only [extract_loop] at h
    split at h
    · cases h
      simp
    · cases hf : formatRow row with
      | error m => simp only [hf] at h; cases h
      | ok vals =>
        simp only [hf] at h
        split at h
        · cases h
          simp
        · rename_i hstop
          cases hrec : extract_loop re lim s rest (c + 1) with
          | error m => simp only [hrec] at h; cases h
          | ok tail =>
            simp only [hrec] at h
            cases h
            have := ih (c + 1) tail hrec
            simp only [List.length_cons]
            push_cast
            omega

theorem extract_loop_length_le_range (re : Option Int) (lim s : Int)
    (stream : Sheet) (e : Int) (he : re = some e) :
    ∀ (c : Int) (out : List (Int × List String)),
      extract_loop re lim s stream c = .ok out →
      (out.length : Int) ≤ max (e - (s + c) + 1) 0 := by
  induction stream with
  | nil =>
    intro c out h
    simp only [extract_loop] at h
    cases h
    simp
  | cons row rest ih =>
    intro c out h
    simp only [extract_loop] at h
    split at h
    · cases h
      simp
    · rename_i hbreak
      rw [Bool.not_eq_true] at hbreak
      have hle : s + c ≤ e := le_of_rangeBreak_false hbreak e he
      cases hf : formatRow row with
      | error m => simp only [hf] at h; cases h
      | ok vals =>
        simp only [hf] at h
        split at h
        · cases h
          simp
          omega
        · cases hrec : extract_loop re lim s rest (c + 1) with
          | error m => simp only [hrec] at h; cases h
          | ok tail =>
            simp only [hrec] at h
            cases h
            have := ih (c + 1) tail hrec
            simp only [List.length_cons]
            push_cast
            omega

theorem extract_loop_cons_stop (re : Option Int) (lim s : Int)
    (row : List Cell) (rest : Sheet) (c : Int) (out : List (Int × List String))
    (hb : rangeBreak re (s + c) = false) (hl : c + 1 ≥ lim)
    (h : extract_loop re lim s (row :: rest) c = .ok out) :
    ∃ vals, formatRow row = .ok vals ∧ out = [(s + c, vals)] := by
  simp only [extract_loop] at h
  rw [hb] at h
  simp only [Bool.false_eq_true, if_false] at h
  cases hf : formatRow row with
  | error m => simp only [hf] at h; cases h
  | ok vals =>
    simp only [hf, if_pos hl] at h
    cases h
    exact ⟨vals, rfl, rfl⟩

theorem column_loop_length_le (ci : Nat) (lim s : Int) (stream : Sheet) :
    ∀ (c : Int) (out : List (Int × String)),
      column_loop ci lim s stream c = .ok out →
      (out.length : Int) ≤ max (lim - c) 1 := by
  induction stream with
  | nil =>
    intro c out h
    simp only [column_loop] at h
    cases h
    simp
  | cons row rest ih =>
    intro c out h
    simp only [column_loop] at h
    split at h
    · cases h
    · split at h
      · cases h
        simp
      · cases hrec : column_loop ci lim s rest (c + 1) with
        | error m => simp only [hrec] at h; cases h
        | ok tail =>
          simp only [hrec] at h
          cases h
          have := ih (c + 1) tail hrec
          simp only [List.length_cons]
          push_cast
          omega

theorem column_loop_cons_stop (ci : Nat) (lim s : Int)
    (row : List Cell) (rest : Sheet) (c : Int) (out : List (Int × String))
    (hl : c + 1 ≥ lim)
    (h : column_loop ci lim s (row :: rest) c = .ok out) :
    ∃ val, out = [(s + c, val)] := by
  simp only [column_loop] at h
  split at h
  · cases h
  · rename_i val _
    rw [if_pos hl] at h
    cases h
    exact ⟨val, rfl⟩

theorem read_header_row_eq_nil_of_short {rows : Sheet} {hr : Int}
    (h1 : 1 ≤ hr) (h2 : (rows.length : Int) < hr) :
    read_header_row rows hr = .ok [] := by
  unfold read_header_row
  rw [if_neg (by omega), if_neg (by omega)]
  have hidx : rows.length ≤ hr.toNat - 1 := by omega
  rw [List.getElem?_eq_none hidx]

theorem read_header_row_nonneg {rows : Sheet} {hr : Int} {hs : List String}
    (h : read_header_row rows hr = .ok hs) (hne : hs ≠ []) : 0 ≤ hr := by
  by_contra h0
  rw [read_header_row, if_pos (by omega)] at h
  cases h
  exact hne rfl

theorem read_header_row_of_get {rows : Sheet} {hr : Int} {row : List Cell}
    (h1 : 1 ≤ hr) (hg : rows[hr.toNat - 1]? = some row) :
    read_header_row rows hr = formatRow row := by
  unfold read_header_row
  rw [if_neg (by omega), if_neg (by omega), hg]

theorem py_index_eq_none_iff (a : String) (l : List String) :
    py_index a l = Option.none ↔ ∀ x ∈ l, x ≠ a := by
  induction l with
  | nil => simp [py_index]
  | cons x xs ih =>
    by_cases hx : x = a
    · simp [py_index, hx]
    · simp [py_index, hx, Option.map_eq_none', ih]

theorem py_index_get (a : String) (l : List String) :
    ∀ i, py_index a l = some i → l[i]? = some a := by
  induction l with
  | nil => intro i h; simp [py_index] at h
  | cons x xs ih =>
    intro i h
    by_cases hx : x = a
    · simp only [py_index, if_pos hx] at h
      cases h
      simp [hx]
    · simp only [py_index, if_neg hx, Option.map_eq_some'] at h
      obtain ⟨j, hj, rfl⟩ := h
      simpa using ih j hj

theorem cmd_rows_ok_inv {rows : Sheet} {rangeArg : Option String}
    {lim off hr : Int} {out : RowsResult}
    (h : cmd_rows rows rangeArg lim off hr = .ok out) :
    ∃ headers range_start range_end,
      read_header_row rows hr = .ok headers ∧ headers ≠ [] ∧
      parse_range rangeArg = .ok (range_start, range_end) ∧
      extract_loop range_end (eff_limit range_start range_end lim)
          (eff_start range_start off hr)
          (iterRowsFrom rows (eff_start range_start off hr).toNat) 0
        = .ok out.collected ∧
      out.headers = headers ∧ out.total = rows.length := by
  unfold cmd_rows at h
  cases hh : read_header_row rows hr with
  | error m => simp only [hh] at h; cases h
  | ok headers =>
    simp only [hh] at h
    split at h
    · cases h
    · rename_i hne
      cases hp : parse_range rangeArg with
      | error m => simp only [hp] at h; cases h
      | ok pr =>
        obtain ⟨rs, re⟩ := pr
        simp only [hp] at h
        cases he : extract_loop re (eff_limit rs re lim) (eff_start rs off hr)
            (iterRowsFrom rows (eff_start rs off hr).toNat) 0 with
        | error m => simp only [he] at h; cases h
        | ok collected =>
          simp only [he] at h
          cases h
          exact ⟨headers, rs, re, rfl, hne, rfl, he, rfl, rfl⟩

theorem cmd_column_ok_inv {rows : Sheet} {column : String}
    {lim off hr : Int} {out : ColumnResult}
    (h : cmd_column rows column lim off hr = .ok out) :
    ∃ headers,
      read_header_row rows hr = .ok headers ∧ headers ≠ [] ∧
      resolve_column headers column = .ok (out.column_index, out.column) ∧
      column_loop out.column_index lim (hr + 1 + off)
          (iterRowsFrom rows (hr + 1 + off).toNat) 0 = .ok out.values ∧
      out.total = rows.length := by
  unfold cmd_column at h
  cases hh : read_header_row rows hr with
  | error m => simp only [hh] at h; cases h
  | ok headers =>
    simp only [hh] at h
    split at h
    · cases h
    · rename_i hne
      cases hc : resolve_column headers column with
      | error e => simp only [hc] at h; cases h
      | ok p =>
        obtain ⟨ci, cn⟩ := p
        simp only [hc] at h
        cases hl : column_loop ci lim (hr + 1 + off)
            (iterRowsFrom rows (hr + 1 + off).toNat) 0 with
        | error m => simp only [hl] at h; cases h
        | ok collected =>
          simp only [hl] at h
          cases h
          exact ⟨headers, rfl, hne, hc, hl, rfl⟩

theorem clamp_start_ge_header (x hr : Int) : hr + 1 ≤ clamp_start x hr := by
  unfold clamp_start
  split <;> omega

theorem clamp_start_ge_arg (x hr : Int) : x ≤ clamp_start x hr := by
  unfold clamp_start
  split <;> omega

theorem clamp_start_of_gt {x hr : Int} (h : hr < x) : clamp_start x hr = x := by
  unfold clamp_start
  rw [if_neg (by omega)]

/-! ### Claim theorems -/

/-- C3: the range parser maps an absent token to `(absent, absent)`,
`"10"` to `(10, 10)` and `"10-20"` to `(10, 20)`; it never returns a pair
with `start < 1` or `end < start`; `"20-10"`, `"0"` and `"abc"` fail with
`InvalidRange`; and it succeeds exactly when a dash-separated token has two
numeric parts with `1 ≤ start ≤ end`, or a dashless token is numeric and
at least 1. -/
theorem C3_parse_range_spec :
    parse_range Option.none = .ok (Option.none, Option.none)
    ∧ (∀ (t : String) (p : Option Int × Option Int), parse_range (some t) = .ok p →
        ∃ a b, p = (some a, some b) ∧ 1 ≤ a ∧ a ≤ b)
    ∧ parse_range (some "10") = .ok (some 10, some 10)
    ∧ parse_range (some "10-20") = .ok (some 10, some 20)
    ∧ parse_range (some "20-10") = .error (badBoundsMsg "20-10")
    ∧ parse_range (some "0") = .error (tooSmallMsg 0)
    ∧ parse_range (some "abc") = .error (badFormMsg "abc")
    ∧ (∀ t : String, (∃ p, parse_range (some t) = .ok p) ↔
        (if t.data.contains '-' then
          ∃ a b, pyIntL (dashLeft t.data) = some a ∧ pyIntL (dashRight t.data) = some b ∧
            1 ≤ a ∧ a ≤ b
        else ∃ n, pyIntL t.data = some n ∧ 1 ≤ n)) := by
  refine ⟨rfl, parse_range_ok_bounds, rfl, rfl, rfl, rfl, rfl, ?_⟩
  intro t
  simp only [parse_range]
  by_cases hd : t.data.contains '-'
  · rw [if_pos hd, if_pos hd]
    cases h1 : pyIntL (dashLeft t.data) with
    | none => simp [h1]
    | some a =>
      cases h2 : pyIntL (dashRight t.data) with
      | none => simp [h1, h2]
      | some b =>
        simp only [h1, h2]
        constructor
        · rintro ⟨p, hp⟩
          split at hp
          · cases hp
          · rename_i hcond
            exact ⟨a, b, rfl, rfl, by omega, by omega⟩
        · rintro ⟨a', b', ha', hb', hle1, hle2⟩
          cases ha'
          cases hb'
          exact ⟨(some a, some b), by rw [if_neg (by omega)]⟩
  · rw [if_neg hd, if_neg hd]
    cases h1 : pyIntL t.data with
    | none => simp [h1]
    | some n =>
      simp only [h1]
      constructor
      · rintro ⟨p, hp⟩
        split at hp
        · cases hp
        · rename_i hcond
          exact ⟨n, rfl, by omega⟩
      · rintro ⟨n', hn', hle⟩
        cases hn'
        exact ⟨(some n, some n), by rw [if_neg (by omega)]⟩

/-- Witness for C3 at the concrete token `"10-20"`. -/
theorem C3_parse_range_spec_witness :
    ∃ a b, ((some (10 : Int), some (20 : Int)) : Option Int × Option Int)
      = (some a, some b) ∧ 1 ≤ a ∧ a ≤ b :=
  C3_parse_range_spec.2.1 "10-20" (some 10, some 20) (by rfl)

/-- C6: sheet resolution takes the first sheet when no name is given;
a given name is matched case-insensitively with the first match winning;
and when nothing matches it fails with `SheetNotFound` whose message lists
every sheet name, verbatim, in workbook order. -/
theorem C6_resolve_sheet_spec :
    (∀ (p : String × Sheet) (rest : Workbook),
       resolve_sheet (p :: rest) Option.none = .ok p)
    ∧ (∀ (n : String) (pre post : Workbook) (entry : String × Sheet),
       (∀ q ∈ pre, pyLower q.1 ≠ pyLower n) →
       pyLower entry.1 = pyLower n →
       resolve_sheet (pre ++ entry :: post) (some n) = .ok entry)
    ∧ (∀ (wb : Workbook) (n : String),
       (∀ q ∈ wb, pyLower q.1 ≠ pyLower n) →
       resolve_sheet wb (some n) = .error (.sheetNotFound n (wb.map Prod.fst)))
    ∧ (∀ (n : String) (names : List String),
       die_message (.sheetNotFound n names) =
         s!"Sheet '{n}' not found. Available: " ++ String.intercalate ", " names) := by
  refine ⟨fun p rest => rfl, ?_, ?_, fun n names => rfl⟩
  · intro n pre post entry hpre hentry
    have hfindPre : pre.find? (fun p => pyLower p.1 == pyLower n) = Option.none :=
      List.find?_eq_none.mpr fun x hx => by
        simp only [beq_iff_eq]
        exact hpre x hx
    simp only [resolve_sheet]
    rw [List.find?_append, hfindPre, Option.none_or,
      List.find?_cons_of_pos _ (by simp only [beq_iff_eq]; exact hentry)]
  · intro wb n hno
    have hfind : wb.find? (fun p => pyLower p.1 == pyLower n) = Option.none :=
      List.find?_eq_none.mpr fun x hx => by
        simp only [beq_iff_eq]
        exact hno x hx
    simp only [resolve_sheet]
    rw [hfind]

/-- Witness for C6: the name `"BETA"` resolves case-insensitively to the
second sheet, and an unknown name fails listing both sheet names. -/
theorem C6_resolve_sheet_spec_witness :
    resolve_sheet [("Alpha", []), ("Beta", [])] (some "BETA") = .ok ("Beta", [])
    ∧ resolve_sheet [("Alpha", []), ("Beta", [])] (some "Gamma")
      = .error (.sheetNotFound "Gamma" ["Alpha", "Beta"]) :=
  ⟨C6_resolve_sheet_spec.2.1 "BETA" [("Alpha", [])] [] ("Beta", [])
      (by decide) (by decide),
    C6_resolve_sheet_spec.2.2.1 [("Alpha", []), ("Beta", [])] "Gamma" (by decide)⟩

/-- C7: the cell formatter maps `None` to `""`, a date/time to its ISO
text, booleans to `"True"`/`"False"`, an integral float to its integer
rendering (`10.0 ↦ "10"`), any other finite float to its decimal text
(`10.5 ↦ "10.5"`), and other values (ints, strings) to their default
string conversion. -/
theorem C7_format_cell_mapping :
    format_cell Cell.none = .ok ""
    ∧ (∀ iso, format_cell (.dt iso) = .ok iso)
    ∧ format_cell (.bool true) = .ok "True"
    ∧ format_cell (.bool false) = .ok "False"
    ∧ (∀ q : ℚ, q.den = 1 → format_cell (.float (.finite q)) = .ok (toString q.num))
    ∧ (∀ q : ℚ, q.den ≠ 1 → format_cell (.float (.finite q)) = .ok (floatRepr q))
    ∧ format_cell (.float (.finite 10)) = .ok "10"
    ∧ format_cell (.float (.finite (21 / 2))) = .ok "10.5"
    ∧ (∀ n : Int, format_cell (.int n) = .ok (toString n))
    ∧ (∀ s, format_cell (.str s) = .ok s) := by
  refine ⟨rfl, fun iso => rfl, rfl, rfl, ?_, ?_, by rfl, ?_, fun n => rfl,
    fun s => rfl⟩
  · intro q hq
    simp [format_cell, hq]
  · intro q hq
    simp [format_cell, hq]
  · have hq : (21 / 2 : ℚ) = Rat.mk' 21 2 := by
      norm_num [Rat.mk'_eq_divInt, Rat.divInt_eq_div]
    rw [hq]
    rfl

/-- Witness for C7 at the concrete integral float `3.0`. -/
theorem C7_format_cell_mapping_witness :
    format_cell (Cell.float (PyFloat.finite 3)) = .ok (toString (3 : ℚ).num) :=
  C7_format_cell_mapping.2.2.2.2.1 3 (by rfl)

/-- C8 (code bug): the claim says `format_cell` never fails, for every
float including non-finite ones; but the source's float branch computes
`int(value)`, which raises `OverflowError` at `float('inf')` — the
formatter is not total. -/
theorem C8_format_cell_raises_on_inf :
    format_cell (Cell.float PyFloat.inf)
      = .error "cannot convert float infinity to integer"
    ∧ format_cell (Cell.float PyFloat.nan)
      = .error "cannot convert float NaN to integer" :=
  ⟨rfl, rfl⟩

/-- C9 (code bug): the claim says the workbook handle is closed on every
exit path; but `die` exits without closing, so the failed-sheet-lookup and
invalid-range paths of `cmd_rows` terminate with the handle open (flag
`false`), while the empty-sheet path does close first (lines 176-177,
flag `true`), showing the close-before-exit intent. -/
theorem C9_close_skipped_on_error_paths :
    cmd_rows_traced [("Data", [[Cell.str "x"]])] (some "Missing") Option.none 50 0 1
      = (.error (.sheetNotFound "Missing" ["Data"]), false)
    ∧ cmd_rows_traced [("Data", [[Cell.str "x"]])] Option.none (some "zz") 50 0 1
      = (.error (.invalidRange (badFormMsg "zz")), false)
    ∧ cmd_rows_traced [("Data", ([] : Sheet))] Option.none Option.none 50 0 1
      = (.error .emptySheet, true) :=
  ⟨rfl, rfl, rfl⟩

/-- C2 (code bug): the claim says the header row's own row number never
appears among returned data rows for either command; but `cmd_column` has
no `start_row <= header_row` clamp (unlike `cmd_rows`, excel.py lines
189-190), so with `offset = -1` and `header_row = 1` the scan starts at
row 1 and the header row itself is returned as the first data value. -/
theorem C2_cmd_column_returns_header_row :
    cmd_column [[Cell.str "H"], [Cell.str "x"]] "H" 50 (-1) 1
      = .ok ⟨"H", 0, [(1, "H"), (2, "x")], 2⟩ :=
  rfl

/-- C4: column resolution tries a case-insensitive name match first, and
that match wins regardless of any numeric reading of the token (in
particular for the sheet `["A", "2", "c"]` the token `"2"` resolves to the
header named `"2"` at position 1, not to index 2); only when no name
matches is the token read as a 0-based index, accepted within bounds and
rejected otherwise with an error enumerating every header name; a
non-numeric unmatched token fails likewise.  Success returns the position
and the header's original-case text. -/
theorem C4_resolve_column_spec :
    (∀ (headers : List String) (tok : String) (i : Nat),
        py_index (pyLower tok) (headers.map pyLower) = some i →
        resolve_column headers tok = .ok (i, headers.getD i "")
        ∧ i < headers.length
        ∧ pyLower (headers.getD i "") = pyLower tok)
    ∧ (∀ (headers : List String) (tok : String) (idx : Int),
        (∀ h ∈ headers, pyLower h ≠ pyLower tok) → pyInt tok = some idx →
        ((0 ≤ idx ∧ idx < (headers.length : Int)) →
            resolve_column headers tok = .ok (idx.toNat, headers.getD idx.toNat ""))
        ∧ (¬(0 ≤ idx ∧ idx < (headers.length : Int)) →
            resolve_column headers tok = .error (.columnIndexOutOfRange idx headers)))
    ∧ (∀ (headers : List String) (tok : String),
        (∀ h ∈ headers, pyLower h ≠ pyLower tok) → pyInt tok = Option.none →
        resolve_column headers tok = .error (.columnNotFound tok headers))
    ∧ resolve_column ["A", "2", "c"] "2" = .ok (1, "2")
    ∧ resolve_column ["A", "B", "C", "Total"] "Total" = .ok (3, "Total")
    ∧ resolve_column ["A", "B", "C", "Total"] "total" = .ok (3, "Total")
    ∧ resolve_column ["A", "B", "C", "Total"] "3" = .ok (3, "Total")
    ∧ (∀ (tok : String) (names : List String),
        die_message (.columnNotFound tok names) =
          s!"Column '{tok}' not found. Available: " ++
            String.intercalate ", " names) := by
  refine ⟨?_, ?_, ?_, rfl, rfl, rfl, rfl, fun tok names => rfl⟩
  · intro headers tok i hpy
    have hget := py_index_get _ _ i hpy
    rw [List.getElem?_map] at hget
    obtain ⟨h0, hh0, hlow⟩ := Option.map_eq_some'.mp hget
    have hlen : i < headers.length := by
      have := List.getElem?_eq_some.mp hh0
      exact this.1
    have hgetD : headers.getD i "" = h0 := by
      rw [List.getD_eq_getElem?_getD, hh0]
      rfl
    refine ⟨by simp only [resolve_column, hpy], hlen, by rw [hgetD, hlow]⟩
  · intro headers tok idx hno hint
    have hpy : py_index (pyLower tok) (headers.map pyLower) = Option.none :=
      (py_index_eq_none_iff _ _).mpr (by
        intro x hx
        obtain ⟨h0, hh0, rfl⟩ := List.mem_map.mp hx
        exact hno h0 hh0)
    constructor
    · intro hin
      simp only [resolve_column, hpy, hint]
      show (if 0 ≤ idx ∧ idx < (headers.length : Int) then
          (Except.ok (idx.toNat, headers.getD idx.toNat "") : Except CmdError (Nat × String))
        else .error (.columnIndexOutOfRange idx headers)) = _
      rw [if_pos hin]
    · intro hout
      simp only [resolve_column, hpy, hint]
      show (if 0 ≤ idx ∧ idx < (headers.length : Int) then
          (Except.ok (idx.toNat, headers.getD idx.toNat "") : Except CmdError (Nat × String))
        else .error (.columnIndexOutOfRange idx headers)) = _
      rw [if_neg hout]
  · intro headers tok hno hint
    have hpy : py_index (pyLower tok) (headers.map pyLower) = Option.none :=
      (py_index_eq_none_iff _ _).mpr (by
        intro x hx
        obtain ⟨h0, hh0, rfl⟩ := List.mem_map.mp hx
        exact hno h0 hh0)
    simp only [resolve_column, hpy, hint]

/-- Witness for C4: the numeric token `"2"` is resolved by name, to the
header literally called `"2"` at position 1. -/
theorem C4_resolve_column_spec_witness :
    resolve_column ["A", "2", "c"] "2" = .ok (1, ["A", "2", "c"].getD 1 "")
    ∧ 1 < (["A", "2", "c"] : List String).length
    ∧ pyLower (["A", "2", "c"].getD 1 "") = pyLower "2" :=
  C4_resolve_column_spec.1 ["A", "2", "c"] "2" 1 (by rfl)

/-- C5: a sheet with no row at the header position makes both extraction
commands fail with `EmptySheet` (checked before the range token is even
looked at), while a sheet whose header row is its last row — so that no
data rows follow — makes both commands succeed with an empty collection. -/
theorem C5_empty_sheet_vs_no_data :
    (∀ (rows : Sheet) (rangeArg : Option String) (lim off hr : Int),
        1 ≤ hr → (rows.length : Int) < hr →
        cmd_rows rows rangeArg lim off hr = .error .emptySheet)
    ∧ (∀ (rows : Sheet) (col : String) (lim off hr : Int),
        1 ≤ hr → (rows.length : Int) < hr →
        cmd_column rows col lim off hr = .error .emptySheet)
    ∧ (∀ (rows : Sheet) (lim off hr : Int) (hs : List String),
        1 ≤ hr → (rows.length : Int) = hr →
        read_header_row rows hr = .ok hs → hs ≠ [] → 0 ≤ off →
        cmd_rows rows Option.none lim off hr = .ok ⟨hs, [], rows.length⟩)
    ∧ (∀ (rows : Sheet) (col : String) (lim off hr : Int) (hs : List String)
        (i : Nat) (nm : String),
        1 ≤ hr → (rows.length : Int) = hr →
        read_header_row rows hr = .ok hs → hs ≠ [] →
        resolve_column hs col = .ok (i, nm) → 0 ≤ off →
        cmd_column rows col lim off hr = .ok ⟨nm, i, [], rows.length⟩) := by
  refine ⟨?_, ?_, ?_, ?_⟩
  · intro rows rangeArg lim off hr h1 h2
    simp [cmd_rows, read_header_row_eq_nil_of_short h1 h2]
  · intro rows col lim off hr h1 h2
    simp [cmd_column, read_header_row_eq_nil_of_short h1 h2]
  · intro rows lim off hr hs h1 h2 hread hne hoff
    have hstart : eff_start Option.none off hr = hr + 1 + off := by
      simp only [eff_start, pre_start, clamp_start]
      rw [if_neg (by omega)]
    have hstream : iterRowsFrom rows (hr + 1 + off).toNat = [] := by
      unfold iterRowsFrom
      exact List.drop_eq_nil_of_le (by omega)
    simp only [cmd_rows, hread, if_neg hne, parse_range, eff_limit, hstart, hstream,
      extract_loop]
  · intro rows col lim off hr hs i nm h1 h2 hread hne hcol hoff
    have hstream : iterRowsFrom rows (hr + 1 + off).toNat = [] := by
      unfold iterRowsFrom
      exact List.drop_eq_nil_of_le (by omega)
    simp only [cmd_column, hread, if_neg hne, hcol, hstream, column_loop]

/-- Witness for C5: a zero-row sheet fails `EmptySheet`, and a one-row
sheet (header only) returns a successful empty result. -/
theorem C5_empty_sheet_vs_no_data_witness :
    cmd_rows ([] : Sheet) Option.none 50 0 1 = .error .emptySheet
    ∧ cmd_rows [[Cell.str "H1"]] Option.none 50 0 1 = .ok ⟨["H1"], [], 1⟩ :=
  ⟨C5_empty_sheet_vs_no_data.1 [] Option.none 50 0 1 (by decide) (by decide),
    C5_empty_sheet_vs_no_data.2.2.1 [[Cell.str "H1"]] 50 0 1 ["H1"]
      (by decide) (by decide) (by rfl) (by decide) (by decide)⟩

/-- C10: with no range given, the limit check runs only after a row has
been collected, so a limit of at most zero still returns exactly one row
whenever a data row exists at the computed start row, and in general at
most `max limit 1` rows are returned — for both the rows and the column
command. -/
theorem C10_limit_applied_after_collect :
    (∀ (rows : Sheet) (lim off hr : Int) (out : RowsResult),
        cmd_rows rows Option.none lim off hr = .ok out →
        (out.collected.length : Int) ≤ max lim 1
        ∧ (lim ≤ 0 → eff_start Option.none off hr ≤ (rows.length : Int) →
            out.collected.length = 1))
    ∧ (∀ (rows : Sheet) (col : String) (lim off hr : Int) (out : ColumnResult),
        cmd_column rows col lim off hr = .ok out →
        (out.values.length : Int) ≤ max lim 1
        ∧ (lim ≤ 0 → 1 ≤ hr + 1 + off → hr + 1 + off ≤ (rows.length : Int) →
            out.values.length = 1)) := by
  refine ⟨?_, ?_⟩
  · intro rows lim off hr out h
    obtain ⟨headers, rs, re, hread, hne, hparse, hloop, _, _⟩ := cmd_rows_ok_inv h
    simp only [parse_range] at hparse
    cases hparse
    have hel : eff_limit Option.none Option.none lim = lim := rfl
    rw [hel] at hloop
    constructor
    · have hb := extract_loop_length_le _ _ _ _ _ _ hloop
      omega
    · intro hlim hle
      have hge : hr + 1 ≤ eff_start Option.none off hr := clamp_start_ge_header _ _
      have htn : (((eff_start Option.none off hr).toNat : Int))
          = eff_start Option.none off hr := by
        have hnn : 0 ≤ hr := read_header_row_nonneg hread hne
        exact Int.toNat_of_nonneg (by omega)
      have hnn : 0 ≤ hr := read_header_row_nonneg hread hne
      have hlen : (iterRowsFrom rows (eff_start Option.none off hr).toNat).length
          = rows.length - ((eff_start Option.none off hr).toNat - 1) := by
        simp [iterRowsFrom]
      cases hs : iterRowsFrom rows (eff_start Option.none off hr).toNat with
      | nil =>
        rw [hs] at hlen
        simp only [List.length_nil] at hlen
        omega
      | cons row rest =>
        rw [hs] at hloop
        obtain ⟨vals, _, hout⟩ := extract_loop_cons_stop _ _ _ _ _ _ _
          (by rfl) (by omega) hloop
        rw [hout]
        rfl
  · intro rows col lim off hr out h
    obtain ⟨headers, hread, hne, hres, hloop, _⟩ := cmd_column_ok_inv h
    constructor
    · have hb := column_loop_length_le _ _ _ _ _ _ hloop
      omega
    · intro hlim h1 hle
      have htn : (((hr + 1 + off).toNat : Int)) = hr + 1 + off :=
        Int.toNat_of_nonneg (by omega)
      have hlen : (iterRowsFrom rows (hr + 1 + off).toNat).length
          = rows.length - ((hr + 1 + off).toNat - 1) := by
        simp [iterRowsFrom]
      cases hs : iterRowsFrom rows (hr + 1 + off).toNat with
      | nil =>
        rw [hs] at hlen
        simp only [List.length_nil] at hlen
        omega
      | cons row rest =>
        rw [hs] at hloop
        obtain ⟨val, hout⟩ := column_loop_cons_stop _ _ _ _ _ _ _ (by omega) hloop
        rw [hout]
        rfl

/-- Witness for C10: with `limit = 0` on a two-row sheet, the rows command
still returns one data row. -/
theorem C10_limit_applied_after_collect_witness :
    ((⟨["A"], [(2, ["x"])], 2⟩ : RowsResult).collected.length : Int) ≤ max 0 1
    ∧ (⟨["A"], [(2, ["x"])], 2⟩ : RowsResult).collected.length = 1 := by
  have h := C10_limit_applied_after_collect.1 [[Cell.str "A"], [Cell.str "x"]] 0 0 1
    ⟨["A"], [(2, ["x"])], 2⟩ (by rfl)
  exact ⟨h.1, h.2 (by decide) (by decide)⟩

/-- C1 (amended): when the range token parses to `(start, end)`, the rows
command returns at most `end - start + 1` rows, every returned row number
lies in `[start, end]` and within the available rows, and the result does
not depend on the configured `--limit` at all; a single row number `N`
(range `(N, N)`) returns exactly row `N` when `N > header_row` and row `N`
exists, and returns no rows when `N` is beyond the sheet — or (the
amendment, forced by the header clamp of excel.py lines 189-190) when
`N ≤ header_row`. -/
theorem C1_range_window :
    (∀ (rows : Sheet) (tok : String) (s e lim off hr : Int) (out : RowsResult),
        parse_range (some tok) = .ok (some s, some e) →
        cmd_rows rows (some tok) lim off hr = .ok out →
        (out.collected.length : Int) ≤ e - s + 1
        ∧ ∀ p ∈ out.collected,
            s ≤ p.1 ∧ p.1 ≤ e ∧ 1 ≤ p.1 ∧ p.1 ≤ (rows.length : Int))
    ∧ (∀ (rows : Sheet) (tok : String) (s e lim1 lim2 off hr : Int),
        parse_range (some tok) = .ok (some s, some e) →
        cmd_rows rows (some tok) lim1 off hr = cmd_rows rows (some tok) lim2 off hr)
    ∧ (∀ (rows : Sheet) (tok : String) (n lim off hr : Int) (out : RowsResult),
        parse_range (some tok) = .ok (some n, some n) →
        hr < n →
        cmd_rows rows (some tok) lim off hr = .ok out →
        ((n ≤ (rows.length : Int) → ∃ vals, out.collected = [(n, vals)])
         ∧ ((rows.length : Int) < n → out.collected = []))) := by
  refine ⟨?_, ?_, ?_⟩
  · intro rows tok s e lim off hr out hparse hcmd
    obtain ⟨headers, rs, re, hread, hne, hparse', hloop, _, _⟩ := cmd_rows_ok_inv hcmd
    rw [hparse] at hparse'
    cases hparse'
    obtain ⟨a, b, heq, ha, hab⟩ := parse_range_ok_bounds tok _ hparse
    cases heq
    have hst_ge_s : s ≤ eff_start (some s) off hr := clamp_start_ge_arg _ _
    have htn : (((eff_start (some s) off hr).toNat : Int)) = eff_start (some s) off hr :=
      Int.toNat_of_nonneg (by omega)
    have hlimit : eff_limit (some s) (some e) lim = e - s + 1 := by
      simp only [eff_limit]
      rw [if_neg (by omega)]
    rw [hlimit] at hloop
    constructor
    · have hlr := extract_loop_length_le_range (some e) _ _ _ e rfl 0 out.collected hloop
      omega
    · intro p hp
      obtain ⟨hm1, hm2, hm3⟩ := extract_loop_mem _ _ _ _ 0 out.collected hloop p hp
      have hlen : (iterRowsFrom rows (eff_start (some s) off hr).toNat).length
          = rows.length - ((eff_start (some s) off hr).toNat - 1) := by
        simp [iterRowsFrom]
      rw [hlen] at hm2
      exact ⟨by omega, hm3 e rfl, by omega, by omega⟩
  · intro rows tok s e lim1 lim2 off hr hparse
    obtain ⟨a, b, heq, ha, hab⟩ := parse_range_ok_bounds tok _ hparse
    cases heq
    have hel : ∀ l : Int, eff_limit (some s) (some e) l = e - s + 1 := by
      intro l
      simp only [eff_limit]
      rw [if_neg (by omega)]
    simp only [cmd_rows, hparse, hel]
  · intro rows tok n lim off hr out hparse hn hcmd
    obtain ⟨headers, rs, re, hread, hne, hparse', hloop, _, _⟩ := cmd_rows_ok_inv hcmd
    rw [hparse] at hparse'
    cases hparse'
    obtain ⟨a, b, heq, ha, hab⟩ := parse_range_ok_bounds tok _ hparse
    cases heq
    have hst : eff_start (some n) off hr = n := clamp_start_of_gt hn
    rw [hst] at hloop
    have hlim1 : eff_limit (some n) (some n) lim = 1 := by
      simp only [eff_limit]
      rw [if_neg (by omega)]
      omega
    rw [hlim1] at hloop
    have htn : ((n.toNat : Int)) = n := Int.toNat_of_nonneg (by omega)
    constructor
    · intro hle
      have hne' : iterRowsFrom rows n.toNat ≠ [] := by
        simp only [iterRowsFrom, Ne, List.drop_eq_nil_iff]
        omega
      obtain ⟨row, rest, hs⟩ := List.exists_cons_of_ne_nil hne'
      rw [hs] at hloop
      obtain ⟨vals, hfv, hout⟩ := extract_loop_cons_stop (some n) 1 n row rest 0
        out.collected (by simp only [rangeBreak]; simp) (by omega) hloop
      refine ⟨vals, ?_⟩
      rw [hout]
      norm_num
    · intro hlt
      have hsnil : iterRowsFrom rows n.toNat = [] := by
        unfold iterRowsFrom
        exact List.drop_eq_nil_of_le (by omega)
      rw [hsnil] at hloop
      simp only [extract_loop] at hloop
      injection hloop with hloop
      exact hloop.symm

/-- Counterexample to C1 as stated: with the default `header_row = 1`, the
single-row range `"1"` asks for row 1, which is present in this two-row
sheet, yet the command returns no rows (the clamp moves the start past the
range end), contradicting "exactly that row (if present) is returned". -/
theorem C1_single_row_counterexample :
    cmd_rows [[Cell.str "A"], [Cell.str "x"]] (some "1") 50 0 1
      = .ok ⟨["A"], [], 2⟩
    ∧ parse_range (some "1") = .ok (some 1, some 1)
    ∧ 1 ≤ ([[Cell.str "A"], [Cell.str "x"]] : Sheet).length :=
  ⟨rfl, rfl, by decide⟩

/-- Witness for C1 at range `"2-3"` on a four-row sheet. -/
theorem C1_range_window_witness :
    ((⟨["H"], [(2, ["a"]), (3, ["b"])], 4⟩ : RowsResult).collected.length : Int)
      ≤ 3 - 2 + 1 :=
  (C1_range_window.1 [[Cell.str "H"], [Cell.str "a"], [Cell.str "b"], [Cell.str "c"]]
    "2-3" 2 3 50 0 1 ⟨["H"], [(2, ["a"]), (3, ["b"])], 4⟩ (by rfl) (by rfl)).1

end Excel
